import Mathlib

/-!
Shallow embedding of the benchmark core of the Tunai-scrapers repository:
the quality-metrics engine (src/benchmarks/quality_metrics.py), the
enhanced metrics analyzers (src/benchmarks/enhanced_metrics.py), the
metrics collector (src/benchmarks/metrics.py) and the benchmark runner
pipeline (src/benchmarks/runner.py).

Records are schema-less JSON objects.  The analyzers inspect values only
through Python truthiness, str() coercion, isinstance(str) tests, substring
membership and regex search; those operations are embedded below.  JSON
leaf values are modelled (strings, integers, booleans, null); nested
arrays/objects are not modelled, as no metric under verification inspects
them structurally.  Python floats appear only as the wall-clock runtime and
memory/CPU readings, which are modelled as rationals.  Fallible Python code
(TypeError from re.search or substring membership on a non-string,
AttributeError from .encode on a non-string) is modelled with Except.
-/

/-- A JSON leaf value as loaded by json.loads. -/
inductive JVal where
  | str (s : String)
  | num (n : Int)
  | bool (b : Bool)
  | null
deriving DecidableEq, Repr

/-- One JSON object record: association list from field name to value
(json.loads produces dicts with unique keys; lookup takes the first hit). -/
def Record := List (String × JVal)

instance : DecidableEq Record := inferInstanceAs (DecidableEq (List (String × JVal)))

/-- Python truthiness of a JSON leaf value. -/
def truthy : JVal → Bool
  | .str s => s ≠ ""
  | .num n => n ≠ 0
  | .bool b => b
  | .null => false

/-- Python str() of a JSON leaf value. -/
def pyStr : JVal → String
  | .str s => s
  | .num n => toString n
  | .bool true => "True"
  | .bool false => "False"
  | .null => "None"

/-- Python dict .get(key): the value when the key is present. -/
def Record.lookup (item : Record) (key : String) : Option JVal :=
  List.lookup key item

/-- Python membership test: key in item. -/
def Record.hasKey (item : Record) (key : String) : Bool :=
  (item.lookup key).isSome

/-- The kinds of exception the embedded code can raise. -/
inductive PyErr where
  | typeError
  | attributeError
deriving DecidableEq, Repr

/-- Equality of embedded fallible results is decidable. -/
def exceptDecEq {e a : Type} [DecidableEq e] [DecidableEq a] :
    DecidableEq (Except e a)
  | .error x, .error y =>
    if h : x = y then .isTrue (by rw [h])
    else .isFalse (by intro hc; cases hc; exact h rfl)
  | .error _, .ok _ => .isFalse (by intro hc; cases hc)
  | .ok _, .error _ => .isFalse (by intro hc; cases hc)
  | .ok x, .ok y =>
    if h : x = y then .isTrue (by rw [h])
    else .isFalse (by intro hc; cases hc; exact h rfl)

instance {e a : Type} [DecidableEq e] [DecidableEq a] : DecidableEq (Except e a) :=
  exceptDecEq

/-! ### Field priority lists (quality_metrics.py module constants) -/

def TEXT_FIELDS : List String :=
  ["text", "content", "body", "message", "description", "summary"]

def MIN_NONTRIVIAL_TEXT_LENGTH : Nat := 50

def URL_FIELDS : List String :=
  ["url", "link", "href", "source_url", "thread_url", "post_url", "page_url"]

def ID_FIELDS : List String :=
  ["id", "post_id", "comment_id", "message_id", "item_id", "_id"]

def AUTHOR_FIELDS : List String :=
  ["author", "user", "username", "user_name", "poster", "creator"]

def DATE_FIELDS : List String :=
  ["date", "datetime", "timestamp", "created_at", "posted_at", "time"]

/-! ### Generic string helpers (embedding Python str operations) -/

/-- Whether the first list is a prefix of the second (Boolean). -/
def listHasPre : List Char → List Char → Bool
  | [], _ => true
  | _ :: _, [] => false
  | a :: as, b :: bs => a = b && listHasPre as bs

/-- Drop a leading occurrence of lit from cs, when it is there. -/
def stripLead (lit : List Char) (cs : List Char) : Option (List Char) :=
  match lit, cs with
  | [], rest => some rest
  | _ :: _, [] => none
  | a :: as, b :: bs => if a = b then stripLead as bs else none

/-- Python substring containment sub in s over character lists. -/
def listContainsSub (sub : List Char) : List Char → Bool
  | [] => sub.isEmpty
  | c :: rest => listHasPre sub (c :: rest) || listContainsSub sub rest

/-- Python substring containment on strings. -/
def strContains (s sub : String) : Bool :=
  listContainsSub sub.toList s.toList

/-! ### MetricsAnalyzer._extract_text and the per-concept lookups -/

/-- quality_metrics.MetricsAnalyzer._extract_text: first field whose value
is a string with non-blank content; returns the empty string otherwise.
The truthiness of value.strip() is embedded as the existence of a
non-whitespace character. -/
def extractText (item : Record) : List String → String
  | [] => ""
  | f :: rest =>
    match item.lookup f with
    | some (.str s) =>
      if s.toList.any (fun c => !c.isWhitespace) then s else extractText item rest
    | _ => extractText item rest

/-- First field present in the record, regardless of its value
(the id-extraction loop of _analyze_identifiers). -/
def firstPresent (item : Record) : List String → Option JVal
  | [] => none
  | f :: rest =>
    match item.lookup f with
    | some v => some v
    | none => firstPresent item rest

/-- First field present with a truthy value (the author and date loops:
if field in item and item[field]). -/
def firstTruthy (item : Record) : List String → Option JVal
  | [] => none
  | f :: rest =>
    match item.lookup f with
    | some v => if truthy v then some v else firstTruthy item rest
    | none => firstTruthy item rest

/-! ### Text analyzer (quality_metrics.MetricsAnalyzer._analyze_text_content)

The per-record-type average-length buckets (avg_posts_text_length and
friends) are not modelled: no metric under verification depends on them. -/

structure TextMetrics where
  items_with_text : Nat
  items_missing_text : Nat
  non_trivial_text_rate : ℚ
  avg_text_length : ℚ
  total_text_chars : Nat
  min_text_length : Nat
  max_text_length : Nat
  median_text_length : Nat
  text_length_p25 : Nat
  text_length_p75 : Nat
deriving DecidableEq, Repr

/-- The extracted text lengths, in record order (only records with text). -/
def textLengths (items : List Record) : List Nat :=
  items.filterMap (fun item =>
    let t := extractText item TEXT_FIELDS
    if t = "" then none else some t.length)

/-- The ascending sort that _analyze_text_content performs before indexing.
Python list.sort() sorts ascending; on natural numbers the ascending
arrangement of a multiset is unique as a list, so it is embedded by
insertion sort (which is structurally recursive, hence evaluable). -/
def sortedTextLengths (items : List Record) : List Nat :=
  (textLengths items).insertionSort (· ≤ ·)

/-- _analyze_text_content: metrics are only emitted when some record has
text (items_with_text greater than zero). -/
def analyzeTextContent (items : List Record) : Option TextMetrics :=
  let lens := textLengths items
  let itemsWithText := lens.length
  if itemsWithText = 0 then none
  else
    let nontrivial := lens.countP (fun n => MIN_NONTRIVIAL_TEXT_LENGTH ≤ n)
    let total : Nat := lens.foldl (· + ·) 0
    let sorted := (textLengths items).insertionSort (· ≤ ·)
    some
      { items_with_text := itemsWithText
        items_missing_text := items.length - itemsWithText
        non_trivial_text_rate := (nontrivial : ℚ) / (items.length : ℚ)
        avg_text_length := (total : ℚ) / (itemsWithText : ℚ)
        total_text_chars := total
        min_text_length := sorted.getD 0 0
        max_text_length := sorted.getD (sorted.length - 1) 0
        median_text_length := sorted.getD (sorted.length / 2) 0
        text_length_p25 := sorted.getD (sorted.length / 4) 0
        text_length_p75 := sorted.getD (3 * sorted.length / 4) 0 }

/-! ### Identifier analyzer (MetricsAnalyzer._analyze_identifiers) -/

structure IdMetrics where
  items_with_ids : Nat
  unique_ids : Nat
  duplicate_items : Option Nat
  duplication_rate : Option ℚ
deriving DecidableEq, Repr

/-- str(item[field]) for the first id-like field present, per record. -/
def allIds (items : List Record) : List String :=
  items.filterMap (fun item => (firstPresent item ID_FIELDS).map pyStr)

/-- _analyze_identifiers: the block is omitted when no record has an id,
and the duplication figures only appear when there are repeats. -/
def analyzeIdentifiers (items : List Record) : Option IdMetrics :=
  let ids := allIds items
  if ids.isEmpty then none
  else
    let uniq := ids.dedup.length
    some
      { items_with_ids := ids.length
        unique_ids := uniq
        duplicate_items := if uniq < ids.length then some (ids.length - uniq) else none
        duplication_rate :=
          if uniq < ids.length then some (((ids.length - uniq : Nat) : ℚ) / (ids.length : ℚ))
          else none }

/-! ### Author analyzer (MetricsAnalyzer._analyze_authors) -/

structure QAuthorMetrics where
  items_with_authors : Nat
  unique_authors : Nat
  items_per_author : ℚ
deriving DecidableEq, Repr

/-- str(item[field]) for the first truthy author-like field, per record. -/
def allAuthors (items : List Record) : List String :=
  items.filterMap (fun item => (firstTruthy item AUTHOR_FIELDS).map pyStr)

def analyzeAuthors (items : List Record) : Option QAuthorMetrics :=
  let authors := allAuthors items
  if authors.isEmpty then none
  else
    some
      { items_with_authors := authors.length
        unique_authors := authors.dedup.length
        items_per_author := (authors.length : ℚ) / (authors.dedup.length : ℚ) }

/-! ### Temporal analyzer (MetricsAnalyzer._analyze_temporal_data) -/

structure TemporalMetrics where
  items_with_dates : Nat
  temporal_coverage : ℚ
deriving DecidableEq, Repr

def analyzeTemporal (items : List Record) : Option TemporalMetrics :=
  let datesFound := items.countP (fun item => (firstTruthy item DATE_FIELDS).isSome)
  if datesFound = 0 then none
  else
    some
      { items_with_dates := datesFound
        temporal_coverage := (datesFound : ℚ) / (items.length : ℚ) }

/-! ### URL analyzer (MetricsAnalyzer._analyze_urls)

The top_domains rendering (top three hosts with their counts) is not
modelled beyond the unique-domain count: no metric under verification
depends on it.  Key-presence bookkeeping of the url_patterns defaultdict is
collapsed to three plain counters. -/

structure UrlMetrics where
  unique_page_urls : Nat
  unique_thread_urls : Nat
  total_url_mentions : Option Nat
  unique_urls_combined : Option Nat
  unique_domains : Option Nat
  thread_pattern_count : Nat
  post_redirect_count : Nat
  pagination_count : Nat
deriving DecidableEq, Repr

/-- urllib.parse.urlparse(url).netloc, to the extent relied upon: after an
optional scheme: the host part is present only when the remainder starts
with two slashes, and runs until a slash, question mark or hash sign. -/
def netlocOf (s : String) : String :=
  let cs := s.toList
  let afterScheme :=
    let pre := cs.takeWhile (fun c => c ≠ ':' ∧ c ≠ '/' ∧ c ≠ '?' ∧ c ≠ '#')
    match cs.drop pre.length with
    | ':' :: rest => if pre ≠ [] ∧ pre.all Char.isAlpha then rest else cs
    | _ => cs
  match afterScheme with
  | '/' :: '/' :: rest =>
    String.mk (rest.takeWhile (fun c => c ≠ '/' ∧ c ≠ '?' ∧ c ≠ '#'))
  | _ => ""

/-- The page-url branch: records exposing url without thread_url/post_id,
keeping only string values (isinstance check). -/
def pageUrlOf (item : Record) : Option String :=
  if item.hasKey "url" ∧ ¬ (item.hasKey "thread_url" ∨ item.hasKey "post_id") then
    match item.lookup "url" with
    | some (.str s) => some s
    | _ => none
  else none

/-- The thread-url branch: string-valued thread_url fields. -/
def threadUrlOf (item : Record) : Option String :=
  match item.lookup "thread_url" with
  | some (.str s) => some s
  | _ => none

/-- The string values of all url-like fields of one record, in URL_FIELDS
order (non-strings are skipped by the isinstance test). -/
def urlFieldStrings (item : Record) : List String :=
  URL_FIELDS.filterMap (fun f =>
    match item.lookup f with
    | some (.str s) => some s
    | _ => none)

def analyzeUrls (items : List Record) : UrlMetrics :=
  let pageUrls := items.filterMap pageUrlOf
  let threadUrls := items.filterMap threadUrlOf
  let allUrls := items.foldr
    (fun item acc => (pageUrlOf item).toList ++ (threadUrlOf item).toList ++ acc) []
  let fieldUrls := items.foldr (fun item acc => urlFieldStrings item ++ acc) []
  let domains := (fieldUrls.map netlocOf).filter (fun d => d ≠ "")
  { unique_page_urls := pageUrls.dedup.length
    unique_thread_urls := threadUrls.dedup.length
    total_url_mentions := if allUrls.isEmpty then none else some allUrls.length
    unique_urls_combined := if allUrls.isEmpty then none else some allUrls.dedup.length
    unique_domains :=
      if allUrls.isEmpty ∨ domains.isEmpty then none else some domains.dedup.length
    thread_pattern_count := fieldUrls.countP (fun u => strContains u "/threads/")
    post_redirect_count := fieldUrls.countP (fun u => strContains u "/post-")
    pagination_count :=
      fieldUrls.countP (fun u => strContains u "/page-" || strContains u "page=") }

/-! ### Thread analyzer (MetricsAnalyzer._analyze_threads) -/

/-- Leftmost re.search of a literal followed by a non-empty maximal run of
characters satisfying good, capturing that run (the shape of every pattern
in THREAD_ID_PATTERNS). -/
def searchCapture (lit : List Char) (good : Char → Bool) : List Char → Option String
  | [] => none
  | c :: cs =>
    match stripLead lit (c :: cs) with
    | some rest =>
      let run := rest.takeWhile good
      if run.isEmpty then searchCapture lit good cs else some (String.mk run)
    | none => searchCapture lit good cs

/-- The THREAD_ID_PATTERNS loop in listed order, first match wins. -/
def threadSearch (u : String) : Option String :=
  (searchCapture "/threads/".toList Char.isDigit u.toList).orElse fun _ =>
  (searchCapture "/t/".toList (fun c => c ≠ '/') u.toList).orElse fun _ =>
  (searchCapture "/topic/".toList Char.isDigit u.toList).orElse fun _ =>
  searchCapture "/discussion/".toList Char.isDigit u.toList

/-- The expression item.get with thread_url falling back to url with an
empty-string default (Python or keeps the first truthy operand). -/
def urlOrDefault (item : Record) : JVal :=
  match item.lookup "thread_url" with
  | some v => if truthy v then v else (item.lookup "url").getD (.str "")
  | none => (item.lookup "url").getD (.str "")

/-- item.get thread_id falling back to topic_id (Python or). -/
def fallbackThreadId (item : Record) : Option JVal :=
  match item.lookup "thread_id" with
  | some v => if truthy v then some v else item.lookup "topic_id"
  | none => item.lookup "topic_id"

/-- One iteration of the _analyze_threads loop: re.search raises TypeError
when handed a non-string url value. -/
def threadIdOfItem (item : Record) : Except PyErr (Option String) := do
  let fromUrl : Option String ←
    if item.hasKey "thread_url" ∨ item.hasKey "url" then
      match urlOrDefault item with
      | .str s => .ok (threadSearch s)
      | _ => .error .typeError
    else .ok none
  match fromUrl with
  | some tid =>
    if tid ≠ "" then .ok (some tid)
    else .ok (match fallbackThreadId item with
      | some v => if truthy v then some (pyStr v) else none
      | none => none)
  | none => .ok (match fallbackThreadId item with
      | some v => if truthy v then some (pyStr v) else none
      | none => none)

/-- The collected thread ids, left to right, stopping at the first raise. -/
def collectThreadIds : List Record → Except PyErr (List String)
  | [] => .ok []
  | item :: rest => do
    let tid ← threadIdOfItem item
    let tids ← collectThreadIds rest
    .ok (tid.toList ++ tids)

structure ThreadMetrics where
  unique_threads : Nat
  total_thread_items : Nat
  avg_items_per_thread : ℚ
  thread_coverage_breadth : Option ℚ
deriving DecidableEq, Repr

/-- _analyze_threads; totalItems is self.metrics.get("total_items") set by
calculate_all_metrics before the analyzers run. -/
def analyzeThreads (items : List Record) (totalItems : Nat) :
    Except PyErr (Option ThreadMetrics) := do
  let tids ← collectThreadIds items
  if tids.isEmpty then .ok none
  else
    let uniq := tids.dedup.length
    let counts := tids.dedup.map (fun t => tids.count t)
    .ok (some
      { unique_threads := uniq
        total_thread_items := tids.length
        avg_items_per_thread := ((counts.foldl (· + ·) 0 : Nat) : ℚ) / (counts.length : ℚ)
        thread_coverage_breadth :=
          if totalItems ≠ 0 then some ((uniq : ℚ) / (totalItems : ℚ)) else none })

/-! ### Enhanced duplication analyzer
(enhanced_metrics.EnhancedMetricsAnalyzer.analyze_duplication) -/

/-- The md5 hex digest of the text, modelled as an injective fingerprint:
only equality of fingerprints is ever consumed, so hash collisions are not
modelled and the fingerprint of a text is the text itself. -/
def contentFingerprint (s : String) : String := s

/-- item.get post_id falling back to id (Python or). -/
def postIdOf (item : Record) : Option JVal :=
  match item.lookup "post_id" with
  | some v => if truthy v then some v else item.lookup "id"
  | none => item.lookup "id"

/-- The analyze_duplication scan: accumulates the truthy post ids, the
insertion-ordered set of fingerprints of truthy texts, and the count of
repeated fingerprints.  A truthy non-string text raises AttributeError at
text.encode(). -/
def dupScan : List Record → List JVal → List String → Nat →
    Except PyErr (List JVal × List String × Nat)
  | [], pids, seen, dup => .ok (pids, seen, dup)
  | item :: rest, pids, seen, dup =>
    let pids' := match postIdOf item with
      | some v => if truthy v then pids ++ [v] else pids
      | none => pids
    let t := (item.lookup "text").getD (.str "")
    if truthy t then
      match t with
      | .str s =>
        let h := contentFingerprint s
        if seen.contains h then dupScan rest pids' seen (dup + 1)
        else dupScan rest pids' (seen ++ [h]) dup
      | _ => .error .attributeError
    else dupScan rest pids' seen dup

structure DupMetrics where
  total_posts : Nat
  unique_post_ids : Nat
  unique_content_hashes : Nat
  duplicate_count : Nat
  duplication_rate : ℚ
  id_duplication_rate : ℚ
  content_duplication_rate : ℚ
  duplicate_id_count : Nat
  max_duplications : Nat
deriving DecidableEq, Repr

def analyzeDuplication (items : List Record) : Except PyErr DupMetrics := do
  let (pids, seen, dup) ← dupScan items [] [] 0
  let totalPosts := pids.length
  let uniquePostIds := pids.dedup.length
  let uniqueContent := seen.length
  .ok
    { total_posts := totalPosts
      unique_post_ids := uniquePostIds
      unique_content_hashes := uniqueContent
      duplicate_count := dup
      duplication_rate := if 0 < totalPosts then (dup : ℚ) / (totalPosts : ℚ) else 0
      id_duplication_rate :=
        if 0 < totalPosts then ((totalPosts : ℚ) - (uniquePostIds : ℚ)) / (totalPosts : ℚ)
        else 0
      content_duplication_rate :=
        if 0 < totalPosts then ((totalPosts : ℚ) - (uniqueContent : ℚ)) / (totalPosts : ℚ)
        else 0
      duplicate_id_count := (pids.dedup.filter (fun p => 1 < pids.count p)).length
      max_duplications := (pids.dedup.map (fun p => pids.count p)).foldl Nat.max 0 }

/-! ### Enhanced author-coverage analyzer
(EnhancedMetricsAnalyzer.analyze_author_coverage)

The author_post_counts Counter is accumulated by the source but does not
contribute to the returned mapping, so it is not modelled. -/

structure AuthorMetrics where
  posts_with_authors : Nat
  posts_without_authors : Nat
  author_coverage_rate : ℚ
  unique_authors : Nat
  avg_posts_per_author : ℚ
deriving DecidableEq, Repr

/-- The item.get("author") values that are not None: the key must be
present and its value not null. -/
def authorValues (items : List Record) : List JVal :=
  items.filterMap (fun item =>
    match item.lookup "author" with
    | some v => if v = .null then none else some v
    | none => none)

def analyzeAuthorCoverage (items : List Record) : AuthorMetrics :=
  let authors := authorValues items
  let postsWithAuthors := authors.length
  let uniqueAuthors := authors.dedup.length
  { posts_with_authors := postsWithAuthors
    posts_without_authors := items.length - postsWithAuthors
    author_coverage_rate :=
      if 0 < items.length then (postsWithAuthors : ℚ) / (items.length : ℚ) else 0
    unique_authors := uniqueAuthors
    avg_posts_per_author :=
      if 0 < uniqueAuthors then (postsWithAuthors : ℚ) / (uniqueAuthors : ℚ) else 0 }

/-! ### Enhanced crawl analyzer (EnhancedMetricsAnalyzer.analyze_crawl_behavior) -/

/-- Python substring membership sub in v: a TypeError on every non-string
leaf value other than a string (int, bool and None are not iterable). -/
def membershipTest (sub : String) : JVal → Except PyErr Bool
  | .str s => .ok (strContains s sub)
  | _ => .error .typeError

/-- The characters after the first occurrence of lit. -/
def dropAfterFirst (lit : List Char) : List Char → Option (List Char)
  | [] => none
  | c :: rest =>
    match stripLead lit (c :: rest) with
    | some rem => some rem
    | none => dropAfterFirst lit rest

/-- thread_url.split("/threads/")[1].split("/")[0], evaluated when the
membership test succeeded (so the marker occurs in the string): the
characters after the first occurrence of the marker up to the next slash.
The two expressions agree because the first split segment ends at the next
occurrence of the marker, which itself begins with a slash, so cutting at
the first slash cuts at or before it. -/
def threadIdAfterSplit (s : String) : String :=
  match dropAfterFirst "/threads/".toList s.toList with
  | some rest => String.mk (rest.takeWhile (fun c => c ≠ '/'))
  | none => ""

/-- One iteration of the analyze_crawl_behavior loop: the derived thread id
when the url contains the threads marker, and the page url when truthy. -/
def crawlItem (item : Record) : Except PyErr (Option String × Option JVal) := do
  let u := urlOrDefault item
  let hit ← membershipTest "/threads/" u
  let tid : Option String ←
    if hit then
      match u with
      | .str s => .ok (some (threadIdAfterSplit s))
      | _ => .error .typeError
    else .ok none
  let pv := (item.lookup "url").getD (.str "")
  .ok (tid, if truthy pv then some pv else none)

/-- The crawl scan, left to right, stopping at the first raise. -/
def crawlScan : List Record → Except PyErr (List String × List JVal)
  | [] => .ok ([], [])
  | item :: rest => do
    let (tid, page) ← crawlItem item
    let (tids, pages) ← crawlScan rest
    .ok (tid.toList ++ tids, page.toList ++ pages)

structure CrawlMetrics where
  unique_threads : Nat
  unique_pages : Nat
  avg_thread_depth : ℚ
  min_thread_depth : Nat
  max_thread_depth : Nat
deriving DecidableEq, Repr

def analyzeCrawlBehavior (items : List Record) : Except PyErr CrawlMetrics := do
  let (tids, pages) ← crawlScan items
  let depths := tids.dedup.map (fun t => tids.count t)
  .ok
    { unique_threads := tids.dedup.length
      unique_pages := pages.dedup.length
      avg_thread_depth :=
        if depths.isEmpty then 0
        else ((depths.foldl (· + ·) 0 : Nat) : ℚ) / (depths.length : ℚ)
      min_thread_depth := match depths with
        | [] => 0
        | d :: ds => ds.foldl Nat.min d
      max_thread_depth := match depths with
        | [] => 0
        | d :: ds => ds.foldl Nat.max d }

structure EnhancedMetrics where
  duplication : DupMetrics
  authors : AuthorMetrics
  crawl : CrawlMetrics
deriving DecidableEq, Repr

/-- EnhancedMetricsAnalyzer.calculate_all_metrics on a non-empty item list
(the runner only calls it behind its own non-emptiness guard). -/
def enhancedCalcAll (items : List Record) : Except PyErr EnhancedMetrics := do
  let dup ← analyzeDuplication items
  let auth := analyzeAuthorCoverage items
  let crawl ← analyzeCrawlBehavior items
  .ok { duplication := dup, authors := auth, crawl := crawl }

/-! ### Output files and ingestion (runner.py and the top of
quality_metrics.MetricsAnalyzer.calculate_all_metrics)

A declared output file is modelled by what the runner observes of it: its
existence, whether its Path suffix is ".jsonl", whether its name contains
"posts", and the per-line json parse outcomes (some record for a line that
parses as a JSON object, none for a malformed line). -/

structure OutFile where
  present : Bool
  isJsonl : Bool
  hasPostsInName : Bool
  lines : List (Option Record)
deriving DecidableEq

/-- BenchmarkRunner._count_items_in_jsonl: sum(1 for line in file) counts
every line of the file, well-formed or not. -/
def countItemsInJsonl (f : OutFile) : Nat := f.lines.length

/-- The item count of _execute_benchmark: files that exist contribute their
line count (a vanished file contributes zero through the except clause). -/
def itemsCount (files : List OutFile) : Nat :=
  (files.map (fun f => if f.present then countItemsInJsonl f else 0)).foldl (· + ·) 0

/-- MetricsAnalyzer._load_jsonl: each line parsed independently, a line
that fails to parse is skipped (continue), order preserved. -/
def loadJsonlLines : List (Option Record) → List Record
  | [] => []
  | some item :: rest => item :: loadJsonlLines rest
  | none :: rest => loadJsonlLines rest

/-- The records calculate_all_metrics accumulates: files that exist and
carry the .jsonl suffix, in declared order. -/
def loadedItems (files : List OutFile) : List Record :=
  (files.filter (fun f => f.present && f.isJsonl)).foldr
    (fun f acc => loadJsonlLines f.lines ++ acc) []

/-- The merged quality-metrics mapping; a key that the source never sets is
a none field (analyzers omit their block when nothing qualifies). -/
structure QualityMetrics where
  total_items : Option Nat := none
  files_analyzed : Option Nat := none
  text : Option TextMetrics := none
  urls : Option UrlMetrics := none
  ids : Option IdMetrics := none
  authors : Option QAuthorMetrics := none
  threads : Option ThreadMetrics := none
  temporal : Option TemporalMetrics := none
deriving DecidableEq

/-- MetricsAnalyzer.calculate_all_metrics: empty mapping when no records
load; otherwise the analyzer pipeline, which propagates the thread
analyzer's TypeError. -/
def calculateAllMetrics (files : List OutFile) : Except PyErr QualityMetrics :=
  let allItems := loadedItems files
  if allItems.isEmpty then .ok {}
  else
    let filesAnalyzed := (files.filter (fun f =>
      f.present && f.isJsonl && !(loadJsonlLines f.lines).isEmpty)).length
    match analyzeThreads allItems allItems.length with
    | .error e => .error e
    | .ok thm =>
      .ok
        { total_items := some allItems.length
          files_analyzed := some filesAnalyzed
          text := analyzeTextContent allItems
          urls := some (analyzeUrls allItems)
          ids := analyzeIdentifiers allItems
          authors := analyzeAuthors allItems
          threads := thm
          temporal := analyzeTemporal allItems }

/-! ### The enhanced-metrics stage of BenchmarkRunner._add_quality_metrics -/

/-- The try-block around the enhanced analyzers: items come from declared
.jsonl files whose name contains "posts"; opening a missing file raises and
is caught, recorded as enhanced_metrics_error (second component true). -/
def enhancedStage (files : List OutFile) : Option EnhancedMetrics × Bool :=
  if files.isEmpty then (none, false)
  else
    let postsFiles := files.filter (fun f => f.isJsonl && f.hasPostsInName)
    if postsFiles.any (fun f => !f.present) then (none, true)
    else
      let items := postsFiles.foldr (fun f acc => loadJsonlLines f.lines ++ acc) []
      if items.isEmpty then (none, false)
      else
        match enhancedCalcAll items with
        | .ok em => (some em, false)
        | .error _ => (none, true)

/-! ### BenchmarkRunner._execute_benchmark and _add_quality_metrics -/

/-- The result mapping, restricted to the fields the runner computes from
the supervised process and the analyzers (log paths, names and the
timestamp string are environment-supplied and not modelled). -/
structure BenchResult where
  total_runtime_seconds : ℚ
  items_extracted : Nat
  items_per_second : ℚ
  success : Bool
  quality : QualityMetrics
  text_items_per_second : Option ℚ
  enhanced_metrics : Option EnhancedMetrics
  enhanced_metrics_error : Bool
deriving DecidableEq

/-- Line 362 of runner.py: success = exit_code == 0. -/
def successOf (exitCode : Int) : Bool := exitCode == 0

/-- _execute_benchmark: the metrics dict from MetricsCollector.stop (items
per second is count over runtime, 0 when runtime is 0), then, on success
only, _add_quality_metrics merges the quality mapping, runs the enhanced
stage, overrides items_per_second with total_items over runtime and sets
text_items_per_second from items_with_text — each only when runtime and the
respective count are positive.  A TypeError out of calculate_all_metrics
propagates (the benchmark crashes). -/
def executeBenchmark (exitCode : Int) (runtime : ℚ) (files : List OutFile) :
    Except PyErr BenchResult :=
  let count := itemsCount files
  let success := successOf exitCode
  let base : BenchResult :=
    { total_runtime_seconds := runtime
      items_extracted := count
      items_per_second := if 0 < runtime then (count : ℚ) / runtime else 0
      success := success
      quality := {}
      text_items_per_second := none
      enhanced_metrics := none
      enhanced_metrics_error := false }
  if success then
    match calculateAllMetrics files with
    | .error e => .error e
    | .ok qm =>
      let (em, emErr) := enhancedStage files
      let totalItems := qm.total_items.getD 0
      let itemsWithText := (qm.text.map TextMetrics.items_with_text).getD 0
      .ok
        { base with
          quality := qm
          enhanced_metrics := em
          enhanced_metrics_error := emErr
          items_per_second :=
            if 0 < runtime ∧ 0 < totalItems then (totalItems : ℚ) / runtime
            else base.items_per_second
          text_items_per_second :=
            if 0 < runtime ∧ 0 < itemsWithText then some ((itemsWithText : ℚ) / runtime)
            else none }
  else .ok base

/-! ### Process supervision loop (BenchmarkRunner._run_process)

The polling loop is embedded over the sequence of observations it makes:
at each iteration, the process.poll() result (an exit code once the process
has exited) and the elapsed wall-clock time time.time() - start_time at the
timeout comparison.  Sampling and sleeping have no bearing on the returned
exit code.  The loop returns none only when the observation trace is
exhausted undecided. -/

def TIMEOUT_SENTINEL : Int := -1

def runProcessLoop (timeoutSeconds : ℚ) : List (Option Int × ℚ) → Option Int
  | [] => none
  | (pollResult, elapsed) :: rest =>
    match pollResult with
    | some code => some code
    | none =>
      if timeoutSeconds < elapsed then some TIMEOUT_SENTINEL
      else runProcessLoop timeoutSeconds rest

/-! ### MetricsCollector (metrics.py) -/

/-- The mutable state of a MetricsCollector: whether attach_to_process
succeeded, the running peak memory and the accumulated CPU samples. -/
structure CollectorState where
  attached : Bool
  peakMemory : ℚ
  cpuSamples : List ℚ
deriving DecidableEq

def CollectorState.init : CollectorState :=
  { attached := false, peakMemory := 0, cpuSamples := [] }

/-- What one call to sample() observes: the process vanished before the
memory read (the surrounding try swallows it), or a summed memory reading
in megabytes together with the cpu_percent reading when that second read
did not itself raise. -/
inductive SampleObs where
  | vanished
  | reading (memMb : ℚ) (cpu : Option ℚ)

/-- MetricsCollector.sample: a no-op when unattached; otherwise the peak is
the max of itself and the observed memory sum, and a positive CPU reading
is appended to the sample list. -/
def CollectorState.sample (st : CollectorState) (obs : SampleObs) : CollectorState :=
  if !st.attached then st
  else
    match obs with
    | .vanished => st
    | .reading mem cpu =>
      let st1 := { st with peakMemory := max st.peakMemory mem }
      match cpu with
      | none => st1
      | some c => if 0 < c then { st1 with cpuSamples := st1.cpuSamples ++ [c] } else st1

/-- A whole run: fold sample over the observation sequence. -/
def CollectorState.sampleRun (st : CollectorState) (obss : List SampleObs) : CollectorState :=
  obss.foldl CollectorState.sample st

/-- The memory sums actually observed by a run (vanished samples and
samples taken while unattached observe nothing). -/
def observedMems (obss : List SampleObs) : List ℚ :=
  obss.filterMap (fun o => match o with
    | .reading mem _ => some mem
    | .vanished => none)

/-! ### Derived views of the scans, used to state and prove the theorems -/

/-- Whether a record's text field cannot make analyze_duplication raise:
the value under text, when truthy, is a string. -/
def textOkay (item : Record) : Bool :=
  match (item.lookup "text").getD (.str "") with
  | .str _ => true
  | v => !truthy v

/-- Whether the url-like values the thread and crawl analyzers consume are
strings (when present). -/
def urlValuesOkay (item : Record) : Bool :=
  (match item.lookup "url" with
   | some (.str _) => true
   | some _ => false
   | none => true)
  && (match item.lookup "thread_url" with
      | some (.str _) => true
      | some _ => false
      | none => true)

/-- The truthy post id the duplication scan appends for one record. -/
def pidOf (item : Record) : Option JVal :=
  match postIdOf item with
  | some v => if truthy v then some v else none
  | none => none

/-- The truthy post ids of a record list, in order. -/
def pidsOf (items : List Record) : List JVal :=
  items.filterMap pidOf

/-- The truthy string text of one record, as hashed by the duplication
scan (none when the text is absent, falsy, or not a string). -/
def textOf (item : Record) : Option String :=
  match (item.lookup "text").getD (.str "") with
  | .str s => if s ≠ "" then some s else none
  | _ => none

/-- The truthy texts of a record list, in order. -/
def textsOf (items : List Record) : List String :=
  items.filterMap textOf

/-- Modelled from the spec: the author coverage rate as claim C5 words it
(records with a non-empty author extracted first-match-wins over the
author/user/username/poster/creator field list, over the total item
count), for comparison with analyzeAuthorCoverage, which consults only the
author key and counts any non-None value. -/
def specAuthorCoverageRate (items : List Record) : ℚ :=
  if 0 < items.length then
    ((items.countP (fun it => (firstTruthy it AUTHOR_FIELDS).isSome)) : ℚ) / (items.length : ℚ)
  else 0

/-! ### Concrete fixtures for the counterexamples and witnesses -/

/-- A record whose text is n copies of the letter a. -/
def mkTextRec (n : Nat) : Record := [("text", .str (String.mk (List.replicate n 'a')))]

/-- Claim C1 fixture: one declared jsonl output file holding one
well-formed line and one malformed line. -/
def c1CexFile : OutFile := ⟨true, true, false, [some [("id", .num 1)], none]⟩

/-- Claim C1 witness fixture: one declared jsonl output file whose two
lines are both well-formed. -/
def c1WitFile : OutFile := ⟨true, true, false, [some [("id", .num 1)], some [("id", .num 2)]]⟩

/-- Claim C2 fixture: three records with the same text and one with a
different text, none carrying an id, plus one record carrying only an id:
the duplicate count (3) divides a post total of 1. -/
def c2CexItems : List Record :=
  [[("text", .str "a")], [("text", .str "a")], [("text", .str "a")],
   [("text", .str "b")], [("id", .num 1)]]

/-- Claim C2 witness fixture: the worked duplication example of the spec. -/
def c2WitItems : List Record :=
  [[("id", .str "a"), ("text", .str "hi")],
   [("id", .str "a"), ("text", .str "hi")],
   [("id", .str "b"), ("text", .str "bye")]]

/-- Claim C4 fixture: a single record whose text is two characters long,
far below the 50-character non-trivial threshold. -/
def c4CexFile : OutFile := ⟨true, true, false, [some [("text", .str "hi")]]⟩

/-- Claim C7 witness fixtures: the same records in two different orders. -/
def c7ItemsA : List Record :=
  [[("id", .num 1), ("text", .str "x")], [("id", .num 1), ("text", .str "x")],
   [("id", .num 2), ("text", .str "y")]]

def c7ItemsB : List Record :=
  [[("id", .num 2), ("text", .str "y")], [("id", .num 1), ("text", .str "x")],
   [("id", .num 1), ("text", .str "x")]]

/-- Claim C8 fixture: four records with texts of lengths 30, 10, 40 and 20
(deliberately unsorted). -/
def c8Items : List Record := [mkTextRec 30, mkTextRec 10, mkTextRec 40, mkTextRec 20]

/-- Claim C9 witness fixture: a successful reading, a vanished process, a
reading with a CPU figure. -/
def c9Obss : List SampleObs := [.reading 5 none, .vanished, .reading 3 (some 2)]

/-- Claim C10 fixtures: a record whose url holds a number, and a file of
records whose url-like values are all strings. -/
def c10BadItem : Record := [("url", .num 5)]

def c10BadFile : OutFile := ⟨true, true, false, [some c10BadItem]⟩

def c10GoodFile : OutFile :=
  ⟨true, true, false,
   [some [("url", .str "https://site.tn/threads/9/page-2"), ("text", .str "hello")],
    some [("thread_url", .str "https://site.tn/t/abc")]]⟩

/-! ### Shared lemmas -/

theorem loadJsonlLines_eq_filterMap (ls : List (Option Record)) :
    loadJsonlLines ls = ls.filterMap id := by
  induction ls with
  | nil => rfl
  | cons l rest ih => cases l <;> simp [loadJsonlLines, ih]

theorem length_loadJsonlLines (ls : List (Option Record)) :
    (loadJsonlLines ls).length = ls.countP Option.isSome := by
  induction ls with
  | nil => rfl
  | cons l rest ih => cases l <;> simp [loadJsonlLines, ih, List.countP_cons]

theorem countP_some_add_countP_not (ls : List (Option Record)) :
    ls.length = ls.countP Option.isSome + ls.countP (fun l => !l.isSome) := by
  induction ls with
  | nil => rfl
  | cons l rest ih => cases l <;> simp [List.countP_cons, ih] <;> omega

theorem foldl_max_init_le (l : List ℚ) (a : ℚ) : a ≤ l.foldl max a := by
  induction l generalizing a with
  | nil => exact le_refl a
  | cons x xs ih => exact le_trans (le_max_left a x) (ih (max a x))

theorem foldl_max_mem_le (l : List ℚ) (a m : ℚ) : m ∈ l → m ≤ l.foldl max a := by
  induction l generalizing a with
  | nil => intro hm; cases hm
  | cons x xs ih =>
    intro hm
    rcases List.mem_cons.mp hm with h | h
    · subst h; exact le_trans (le_max_right a m) (foldl_max_init_le xs (max a m))
    · exact ih (max a x) h

theorem foldl_max_eq_init_or_mem (l : List ℚ) (a : ℚ) :
    l.foldl max a = a ∨ l.foldl max a ∈ l := by
  induction l generalizing a with
  | nil => left; rfl
  | cons x xs ih =>
    rcases ih (max a x) with h | h
    · rcases max_choice a x with hc | hc
      · left; rw [List.foldl_cons, h, hc]
      · right
        rw [List.foldl_cons, h, hc]
        exact List.mem_cons_self x xs
    · right; exact List.mem_cons_of_mem x h

/-! ### Claim C3 -/

/-- Claim C3: in the supervisor polling loop the exit-status check precedes
the timeout check on every iteration, so a process observed as exited is
reported with its own exit code even when the elapsed time already exceeds
the timeout; a process still running past the timeout yields the
distinguished sentinel; and success holds exactly for exit code 0, so both
a non-zero exit code and the timeout sentinel yield failure. -/
theorem exit_check_precedes_timeout (t e : ℚ) (c : Int)
    (rest : List (Option Int × ℚ)) (h : t < e) :
    runProcessLoop t ((some c, e) :: rest) = some c
    ∧ runProcessLoop t ((none, e) :: rest) = some TIMEOUT_SENTINEL
    ∧ (∀ code : Int, successOf code = true ↔ code = 0)
    ∧ successOf TIMEOUT_SENTINEL = false := by
  refine ⟨rfl, ?_, ?_, by decide⟩
  · simp [runProcessLoop, h]
  · intro code; simp [successOf]

theorem exit_check_precedes_timeout_witness :
    runProcessLoop 1 [(some 7, 2)] = some 7
    ∧ runProcessLoop 1 [(none, 2)] = some TIMEOUT_SENTINEL
    ∧ successOf TIMEOUT_SENTINEL = false := by
  obtain ⟨h1, h2, _, h4⟩ := exit_check_precedes_timeout 1 2 7 [] (by norm_num)
  exact ⟨h1, h2, h4⟩

/-! ### Claim C6 -/

/-- Claim C6: loading a JSONL file whose lines comprise N well-formed JSON
objects and M malformed lines yields exactly the N well-formed records in
file order (the loader is a total function, so it never raises), and a
declared path that does not exist contributes zero records to both the
ingested record list and the reported item count. -/
theorem load_jsonl_wellformed_in_order (ls : List (Option Record)) (N M : Nat)
    (hN : ls.countP Option.isSome = N)
    (hM : ls.countP (fun l => !l.isSome) = M)
    (f : OutFile) (hf : f.present = false) :
    loadJsonlLines ls = ls.filterMap id
    ∧ (loadJsonlLines ls).length = N
    ∧ ls.length = N + M
    ∧ (∀ files : List OutFile,
        loadedItems (f :: files) = loadedItems files
        ∧ itemsCount (f :: files) = itemsCount files) := by
  refine ⟨loadJsonlLines_eq_filterMap ls, by rw [length_loadJsonlLines, hN], ?_, ?_⟩
  · rw [← hN, ← hM]; exact countP_some_add_countP_not ls
  · intro files
    constructor
    · simp [loadedItems, List.filter_cons, hf]
    · simp [itemsCount, hf]

theorem load_jsonl_wellformed_in_order_witness :
    (loadJsonlLines [some ([("a", JVal.num 1)] : Record), none, some [("b", JVal.num 2)]]).length = 2
    ∧ itemsCount [(⟨false, false, false, []⟩ : OutFile)] = itemsCount [] := by
  have h := load_jsonl_wellformed_in_order
    [some ([("a", JVal.num 1)] : Record), none, some [("b", JVal.num 2)]] 2 1
    (by decide) (by decide) ⟨false, false, false, []⟩ rfl
  exact ⟨h.2.1, (h.2.2.2 []).2⟩

/-! ### Claim C9 -/

theorem sampleRun_peak (obss : List SampleObs) (st : CollectorState)
    (ha : st.attached = true) :
    (st.sampleRun obss).peakMemory = (observedMems obss).foldl max st.peakMemory
    ∧ (st.sampleRun obss).attached = true := by
  induction obss generalizing st with
  | nil => exact ⟨rfl, ha⟩
  | cons o os ih =>
    have hstep : (st.sample o).attached = true
        ∧ (st.sample o).peakMemory =
          (match o with
           | .reading m _ => max st.peakMemory m
           | .vanished => st.peakMemory) := by
      cases o with
      | vanished => simp [CollectorState.sample, ha]
      | reading m c =>
        cases c with
        | none => simp [CollectorState.sample, ha]
        | some cv =>
          by_cases hc : 0 < cv <;> simp [CollectorState.sample, ha, hc]
    have hrec := ih (st.sample o) hstep.1
    cases o with
    | vanished =>
      have : st.sampleRun (SampleObs.vanished :: os) = (st.sample SampleObs.vanished).sampleRun os := rfl
      rw [this, hrec.1, hstep.2]
      exact ⟨rfl, hrec.2⟩
    | reading m c =>
      have : st.sampleRun (SampleObs.reading m c :: os) = (st.sample (SampleObs.reading m c)).sampleRun os := rfl
      rw [this]
      refine ⟨?_, hrec.2⟩
      rw [hrec.1, hstep.2]
      rfl

/-- Claim C9: after every sample the peak-memory aggregate is the maximum
of the memory sums observed so far (so it is monotonically non-decreasing
across samples), and sampling before a successful attach leaves the whole
collector state — peak memory and CPU-sample list included — unchanged. -/
theorem peak_memory_running_max (obss : List SampleObs)
    (hnn : ∀ m ∈ observedMems obss, 0 ≤ m) :
    (∀ (st : CollectorState) (o : SampleObs), st.attached = false → st.sample o = st)
    ∧ (∀ m ∈ observedMems obss,
        m ≤ (CollectorState.sampleRun ⟨true, 0, []⟩ obss).peakMemory)
    ∧ (observedMems obss = [] →
        (CollectorState.sampleRun ⟨true, 0, []⟩ obss).peakMemory = 0)
    ∧ (observedMems obss ≠ [] →
        (CollectorState.sampleRun ⟨true, 0, []⟩ obss).peakMemory ∈ observedMems obss)
    ∧ (∀ o, (CollectorState.sampleRun ⟨true, 0, []⟩ obss).peakMemory
        ≤ (CollectorState.sampleRun ⟨true, 0, []⟩ (obss ++ [o])).peakMemory) := by
  have hrun := (sampleRun_peak obss ⟨true, 0, []⟩ rfl).1
  refine ⟨?_, ?_, ?_, ?_, ?_⟩
  · intro st o h
    simp [CollectorState.sample, h]
  · intro m hm
    rw [hrun]
    exact foldl_max_mem_le (observedMems obss) 0 m hm
  · intro h
    rw [hrun, h]
    rfl
  · intro hne
    have hzero : ((⟨true, 0, []⟩ : CollectorState)).peakMemory = (0 : ℚ) := rfl
    rw [hrun, hzero]
    rcases foldl_max_eq_init_or_mem (observedMems obss) 0 with h0 | hmem
    · obtain ⟨m0, rest, hms⟩ := List.exists_cons_of_ne_nil hne
      have hm0 : m0 ∈ observedMems obss := by rw [hms]; exact List.mem_cons_self _ _
      have h1 : m0 ≤ (0 : ℚ) := by
        have h2 := foldl_max_mem_le (observedMems obss) 0 m0 hm0
        rw [h0] at h2
        exact h2
      have h3 : m0 = 0 := le_antisymm h1 (hnn m0 hm0)
      rw [h0, ← h3]
      exact hm0
    · exact hmem
  · intro o
    have hrun2 := (sampleRun_peak (obss ++ [o]) ⟨true, 0, []⟩ rfl).1
    rw [hrun, hrun2]
    have : observedMems (obss ++ [o]) = observedMems obss ++ observedMems [o] := by
      simp [observedMems]
    rw [this, List.foldl_append]
    exact foldl_max_init_le _ _

theorem peak_memory_running_max_witness :
    (CollectorState.sampleRun ⟨true, 0, []⟩ c9Obss).peakMemory ∈ observedMems c9Obss
    ∧ (5 : ℚ) ≤ (CollectorState.sampleRun ⟨true, 0, []⟩ c9Obss).peakMemory := by
  have h := peak_memory_running_max c9Obss (by decide)
  exact ⟨h.2.2.2.1 (by decide), h.2.1 5 (by decide)⟩

/-! ### Claim C8 -/

/-- Claim C8: for every record set with text, the median, 25th- and
75th-percentile text-length metrics index the ascending sort of the
lengths at floor(n/2), floor(n/4) and floor(3n/4) with no interpolation;
in particular for texts of lengths 10, 20, 30 and 40 (supplied unsorted)
the median is 30, the 25th percentile 20 and the 75th percentile 40. -/
theorem percentile_floor_indexing :
    (∀ (items : List Record) (tm : TextMetrics), analyzeTextContent items = some tm →
      (sortedTextLengths items).Sorted (· ≤ ·)
      ∧ List.Perm (sortedTextLengths items) (textLengths items)
      ∧ tm.median_text_length
          = (sortedTextLengths items).getD ((sortedTextLengths items).length / 2) 0
      ∧ tm.text_length_p25
          = (sortedTextLengths items).getD ((sortedTextLengths items).length / 4) 0
      ∧ tm.text_length_p75
          = (sortedTextLengths items).getD (3 * (sortedTextLengths items).length / 4) 0)
    ∧ (analyzeTextContent c8Items).map TextMetrics.median_text_length = some 30
    ∧ (analyzeTextContent c8Items).map TextMetrics.text_length_p25 = some 20
    ∧ (analyzeTextContent c8Items).map TextMetrics.text_length_p75 = some 40 := by
  refine ⟨?_, by decide, by decide, by decide⟩
  intro items tm h
  refine ⟨List.sorted_insertionSort _ _, List.perm_insertionSort _ _, ?_, ?_, ?_⟩
  all_goals
    unfold analyzeTextContent at h
    by_cases h0 : (textLengths items).length = 0
  any_goals simp [h0] at h
  all_goals
    rw [← h]
    simp [sortedTextLengths]

theorem percentile_floor_indexing_witness :
    (sortedTextLengths c8Items).Sorted (· ≤ ·)
    ∧ List.Perm (sortedTextLengths c8Items) (textLengths c8Items) := by
  have hsome : (analyzeTextContent c8Items).isSome = true := by decide
  obtain ⟨tm, htm⟩ := Option.isSome_iff_exists.mp hsome
  have h := percentile_floor_indexing.1 c8Items tm htm
  exact ⟨h.1, h.2.1⟩

/-! ### Claim C5 -/

/-- Claim C5 counterexample: a record attributing its content through the
user field has a non-empty first-match author over the prioritized field
list, yet the enhanced author analyzer reports a coverage rate of 0,
because it consults only the author key. -/
theorem author_coverage_single_field_cex :
    (analyzeAuthorCoverage [[("user", JVal.str "bob")]]).author_coverage_rate = 0
    ∧ specAuthorCoverageRate [[("user", JVal.str "bob")]] = 1 := by
  constructor
  · have hv : authorValues [[("user", JVal.str "bob")]] = [] := by decide
    simp [analyzeAuthorCoverage, hv]
  · have hc : ([[("user", JVal.str "bob")]] : List Record).countP
        (fun it => (firstTruthy it AUTHOR_FIELDS).isSome) = 1 := by decide
    simp [specAuthorCoverageRate, hc]

/-- Claim C5 as amended: author_coverage_rate equals posts_with_authors
over total_items and avg_posts_per_author equals posts_with_authors over
unique_authors (0 when there are none), where posts_with_authors counts
the records whose author key holds a non-None value — other author-like
field names are not consulted, and an empty-string author still counts. -/
theorem author_coverage_formulas_amended (items : List Record) :
    (analyzeAuthorCoverage items).posts_with_authors
      = items.countP (fun it =>
          match it.lookup "author" with
          | some v => v ≠ JVal.null
          | none => false)
    ∧ (analyzeAuthorCoverage items).author_coverage_rate
      = (if 0 < items.length then
          ((analyzeAuthorCoverage items).posts_with_authors : ℚ) / (items.length : ℚ)
         else 0)
    ∧ (analyzeAuthorCoverage items).avg_posts_per_author
      = (if 0 < (analyzeAuthorCoverage items).unique_authors then
          ((analyzeAuthorCoverage items).posts_with_authors : ℚ)
            / ((analyzeAuthorCoverage items).unique_authors : ℚ)
         else 0) := by
  refine ⟨?_, rfl, rfl⟩
  show (authorValues items).length = _
  rw [authorValues, List.length_filterMap_eq_countP]
  apply List.countP_congr
  intro it _
  cases hv : it.lookup "author" with
  | none => simp [hv]
  | some v => cases v <;> simp [hv]

/-! ### Claim C2 -/

theorem nat_div_nonneg_q (a b : Nat) : (0 : ℚ) ≤ (a : ℚ) / (b : ℚ) :=
  div_nonneg (by positivity) (by positivity)

theorem nat_div_le_one_q {a b : Nat} (hab : a ≤ b) (hb : 0 < b) :
    (a : ℚ) / (b : ℚ) ≤ 1 := by
  rw [div_le_one (by exact_mod_cast hb)]
  exact_mod_cast hab

theorem dupScan_isOk (items : List Record) :
    ∀ (pids : List JVal) (seen : List String) (dup : Nat),
      (∀ it ∈ items, textOkay it = true) →
      (dupScan items pids seen dup).isOk = true := by
  induction items with
  | nil => intro pids seen dup _; rfl
  | cons item rest ih =>
    intro pids seen dup h
    have hitem := h item (List.mem_cons_self _ _)
    have hrest : ∀ it ∈ rest, textOkay it = true :=
      fun it hit => h it (List.mem_cons_of_mem _ hit)
    unfold textOkay at hitem
    unfold dupScan
    cases htv : (item.lookup "text").getD (.str "") with
    | str s =>
      by_cases hs : truthy (.str s)
      · simp only [htv, hs, if_true]
        split
        · exact ih _ _ _ hrest
        · exact ih _ _ _ hrest
      · simp only [htv, hs, Bool.false_eq_true, if_false]
        exact ih _ _ _ hrest
    | num n =>
      rw [htv] at hitem
      simp only [htv, Bool.not_eq_true'] at hitem ⊢
      rw [hitem]
      simp only [Bool.false_eq_true, if_false]
      exact ih _ _ _ hrest
    | bool b =>
      rw [htv] at hitem
      simp only [htv, Bool.not_eq_true'] at hitem ⊢
      rw [hitem]
      simp only [Bool.false_eq_true, if_false]
      exact ih _ _ _ hrest
    | null =>
      simp only [htv, truthy, Bool.false_eq_true, if_false]
      exact ih _ _ _ hrest

/-- Claim C2 counterexample: on records where three identical texts and a
fourth distinct text coexist with a single id-bearing record, the enhanced
duplication rate is 2 (above 1) and the content duplication rate is -1
(below 0), refuting that every computed rate lies in the interval 0 to 1. -/
theorem duplication_rate_exceeds_one_cex :
    (analyzeDuplication c2CexItems).map DupMetrics.duplication_rate = .ok 2
    ∧ (analyzeDuplication c2CexItems).map DupMetrics.content_duplication_rate = .ok (-1)
    ∧ ¬ ((2 : ℚ) ≤ 1) ∧ ¬ ((0 : ℚ) ≤ -1) := by
  have hscan : dupScan c2CexItems [] [] 0 = .ok ([JVal.num 1], ["a", "b"], 2) := by decide
  refine ⟨?_, ?_, by norm_num, by norm_num⟩
  · simp [analyzeDuplication, hscan, Except.map, Except.bind, bind, List.dedup]
  · simp [analyzeDuplication, hscan, Except.map, Except.bind, bind, List.dedup]
    norm_num

theorem analyzeAuthorCoverage_rate_def (items : List Record) :
    (analyzeAuthorCoverage items).author_coverage_rate
      = if 0 < items.length then
          ((authorValues items).length : ℚ) / (items.length : ℚ)
        else 0 := rfl

theorem analyzeAuthorCoverage_avg_def (items : List Record) :
    (analyzeAuthorCoverage items).avg_posts_per_author
      = if 0 < (authorValues items).dedup.length then
          ((authorValues items).length : ℚ) / ((authorValues items).dedup.length : ℚ)
        else 0 := rfl

/-- Claim C2 as amended: on records whose truthy text values are strings,
no analyzer raises; the identifier duplication rate, the non-trivial text
rate, the temporal coverage, the enhanced author coverage rate and the
enhanced id duplication rate all lie in the interval 0 to 1 and their
zero-denominator cases yield 0 (or omit the block); but the enhanced
duplication_rate and content_duplication_rate divide text-derived counts
by the id-bearing post total, so the former is only bounded below by 0 and
the latter only above by 1 — they leave the interval when the text-bearing
and id-bearing record populations differ, as the counterexample shows. -/
theorem rate_metrics_bounds_amended (items : List Record)
    (h : ∀ it ∈ items, textOkay it = true) :
    (analyzeDuplication items).isOk = true
    ∧ (∀ d, analyzeDuplication items = .ok d →
        0 ≤ d.id_duplication_rate ∧ d.id_duplication_rate ≤ 1
        ∧ 0 ≤ d.duplication_rate
        ∧ d.content_duplication_rate ≤ 1
        ∧ (d.total_posts = 0 →
            d.duplication_rate = 0 ∧ d.id_duplication_rate = 0
            ∧ d.content_duplication_rate = 0))
    ∧ (0 ≤ (analyzeAuthorCoverage items).author_coverage_rate
        ∧ (analyzeAuthorCoverage items).author_coverage_rate ≤ 1
        ∧ (items = [] → (analyzeAuthorCoverage items).author_coverage_rate = 0)
        ∧ 0 ≤ (analyzeAuthorCoverage items).avg_posts_per_author)
    ∧ (∀ m, analyzeIdentifiers items = some m →
        ∀ r, m.duplication_rate = some r → 0 ≤ r ∧ r ≤ 1)
    ∧ (∀ tm, analyzeTextContent items = some tm →
        0 ≤ tm.non_trivial_text_rate ∧ tm.non_trivial_text_rate ≤ 1)
    ∧ (∀ dm, analyzeTemporal items = some dm →
        0 ≤ dm.temporal_coverage ∧ dm.temporal_coverage ≤ 1) := by
  have hscanOk := dupScan_isOk items [] [] 0 h
  have hdupOk : (analyzeDuplication items).isOk = true := by
    unfold analyzeDuplication
    cases hsc : dupScan items [] [] 0 with
    | error e => rw [hsc] at hscanOk; simp [Except.isOk, Except.toBool] at hscanOk
    | ok t =>
      obtain ⟨a, b, c⟩ := t
      simp [Except.bind, bind, Except.isOk, Except.toBool]
  refine ⟨hdupOk, ?_, ?_, ?_, ?_, ?_⟩
  · intro d hd
    unfold analyzeDuplication at hd
    cases hscan : dupScan items [] [] 0 with
    | error e => rw [hscan] at hd; cases hd
    | ok t =>
      obtain ⟨pids, seen, dup⟩ := t
      rw [hscan] at hd
      simp only [Except.bind, bind, pure, Except.ok.injEq] at hd
      rw [← hd]
      have hUL : pids.dedup.length ≤ pids.length := (List.dedup_sublist pids).length_le
      by_cases hT : 0 < pids.length
      · have hTq : (0 : ℚ) < (pids.length : ℚ) := by exact_mod_cast hT
        refine ⟨?_, ?_, ?_, ?_, ?_⟩
        · simp only [hT, if_true]
          apply div_nonneg _ (le_of_lt hTq)
          rw [sub_nonneg]
          exact_mod_cast hUL
        · simp only [hT, if_true]
          rw [div_le_one hTq]
          have : (0 : ℚ) ≤ (pids.dedup.length : ℚ) := by positivity
          linarith
        · simp only [hT, if_true]
          exact nat_div_nonneg_q dup pids.length
        · simp only [hT, if_true]
          rw [div_le_one hTq]
          have : (0 : ℚ) ≤ (seen.length : ℚ) := by positivity
          linarith
        · intro h0
          simp only at h0
          omega
      · refine ⟨?_, ?_, ?_, ?_, ?_⟩ <;> simp [hT]
  · have hlen : (authorValues items).length ≤ items.length :=
      List.length_filterMap_le _ items
    refine ⟨?_, ?_, ?_, ?_⟩
    · rw [analyzeAuthorCoverage_rate_def]
      by_cases hl : 0 < items.length
      · rw [if_pos hl]; exact nat_div_nonneg_q _ _
      · rw [if_neg hl]
    · rw [analyzeAuthorCoverage_rate_def]
      by_cases hl : 0 < items.length
      · rw [if_pos hl]; exact nat_div_le_one_q hlen hl
      · rw [if_neg hl]; norm_num
    · intro hnil
      subst hnil
      rfl
    · rw [analyzeAuthorCoverage_avg_def]
      by_cases hl : 0 < (authorValues items).dedup.length
      · rw [if_pos hl]; exact nat_div_nonneg_q _ _
      · rw [if_neg hl]
  · intro m hm r hr
    unfold analyzeIdentifiers at hm
    by_cases he : (allIds items).isEmpty
    · rw [if_pos he] at hm; cases hm
    · rw [if_neg he] at hm
      have hpos : 0 < (allIds items).length := by
        cases hids : allIds items with
        | nil => rw [hids] at he; simp at he
        | cons a as => simp [hids]
      simp only [Option.some.injEq] at hm
      subst hm
      simp only at hr
      by_cases hlt : (allIds items).dedup.length < (allIds items).length
      · rw [if_pos hlt] at hr
        have hrr : (((allIds items).length - (allIds items).dedup.length : Nat) : ℚ)
            / ((allIds items).length : ℚ) = r := Option.some.inj hr
        rw [← hrr]
        exact ⟨nat_div_nonneg_q _ _, nat_div_le_one_q (Nat.sub_le _ _) hpos⟩
      · rw [if_neg hlt] at hr; cases hr
  · intro tm htm
    unfold analyzeTextContent at htm
    by_cases h0 : (textLengths items).length = 0
    · rw [if_pos h0] at htm; cases htm
    · rw [if_neg h0] at htm
      have hle : (textLengths items).countP (fun n => MIN_NONTRIVIAL_TEXT_LENGTH ≤ n)
          ≤ items.length := by
        calc (textLengths items).countP (fun n => MIN_NONTRIVIAL_TEXT_LENGTH ≤ n)
            ≤ (textLengths items).length := List.countP_le_length _
          _ ≤ items.length := List.length_filterMap_le _ items
      have hpos : 0 < items.length := by
        have h2 : (textLengths items).length ≤ items.length :=
          List.length_filterMap_le _ items
        omega
      simp only [Option.some.injEq] at htm
      subst htm
      exact ⟨nat_div_nonneg_q _ _, nat_div_le_one_q hle hpos⟩
  · intro dm hdm
    unfold analyzeTemporal at hdm
    by_cases h0 : items.countP (fun item => (firstTruthy item DATE_FIELDS).isSome) = 0
    · rw [if_pos h0] at hdm; cases hdm
    · rw [if_neg h0] at hdm
      have hle : items.countP (fun item => (firstTruthy item DATE_FIELDS).isSome)
          ≤ items.length := List.countP_le_length _
      simp only [Option.some.injEq] at hdm
      subst hdm
      have hpos : 0 < items.length := by omega
      exact ⟨nat_div_nonneg_q _ _, nat_div_le_one_q hle hpos⟩

theorem rate_metrics_bounds_amended_witness :
    (analyzeDuplication c2WitItems).isOk = true
    ∧ 0 ≤ (analyzeAuthorCoverage c2WitItems).author_coverage_rate := by
  have h := rate_metrics_bounds_amended c2WitItems (by decide)
  exact ⟨h.1, h.2.2.1.1⟩

/-! ### Claims C1 and C4: pipeline lemmas -/

theorem foldl_add_init (l : List Nat) : ∀ a : Nat, l.foldl (· + ·) a = a + l.foldl (· + ·) 0 := by
  induction l with
  | nil => intro a; simp
  | cons x xs ih =>
    intro a
    rw [List.foldl_cons, List.foldl_cons, ih (a + x), ih (0 + x)]
    omega

theorem itemsCount_cons (f : OutFile) (files : List OutFile) :
    itemsCount (f :: files)
      = (if f.present then countItemsInJsonl f else 0) + itemsCount files := by
  unfold itemsCount
  rw [List.map_cons, List.foldl_cons]
  rw [foldl_add_init]
  omega

theorem loadedItems_cons (f : OutFile) (files : List OutFile) :
    loadedItems (f :: files)
      = (if f.present && f.isJsonl then loadJsonlLines f.lines else []) ++ loadedItems files := by
  unfold loadedItems
  rw [List.filter_cons]
  by_cases hp : f.present && f.isJsonl
  · rw [if_pos hp, List.foldr_cons, if_pos hp]
  · rw [if_neg hp, if_neg hp, List.nil_append]

theorem loadedItems_length_eq_itemsCount (files : List OutFile)
    (hjson : ∀ f ∈ files, f.present = true → f.isJsonl = true ∧ ∀ l ∈ f.lines, l.isSome = true) :
    (loadedItems files).length = itemsCount files := by
  induction files with
  | nil => rfl
  | cons f rest ih =>
    have hrest : ∀ g ∈ rest, g.present = true → g.isJsonl = true ∧ ∀ l ∈ g.lines, l.isSome = true :=
      fun g hg => hjson g (List.mem_cons_of_mem _ hg)
    rw [loadedItems_cons, itemsCount_cons, List.length_append, ih hrest]
    congr 1
    by_cases hp : f.present = true
    · obtain ⟨hj, hlines⟩ := hjson f (List.mem_cons_self _ _) hp
      rw [if_pos (by rw [hp, hj]; rfl), if_pos hp]
      rw [length_loadJsonlLines]
      unfold countItemsInJsonl
      exact List.countP_eq_length.mpr hlines
    · have hp' : f.present = false := by
        cases hpv : f.present
        · rfl
        · exact absurd hpv hp
      rw [if_neg (by rw [hp']; simp), if_neg hp]
      rfl

theorem textLengths_length_eq_countP (items : List Record) :
    (textLengths items).length
      = items.countP (fun it => extractText it TEXT_FIELDS ≠ "") := by
  rw [textLengths, List.length_filterMap_eq_countP]
  apply List.countP_congr
  intro it _
  by_cases he : extractText it TEXT_FIELDS = "" <;> simp [he]

theorem calcAll_total_items (files : List OutFile) (qm : QualityMetrics)
    (hq : calculateAllMetrics files = .ok qm) :
    qm.total_items.getD 0 = (loadedItems files).length := by
  unfold calculateAllMetrics at hq
  by_cases hempty : (loadedItems files).isEmpty = true
  · simp only [hempty, if_true] at hq
    have h1 : ({} : QualityMetrics) = qm := Except.ok.inj hq
    rw [← h1]
    have h2 : loadedItems files = [] := List.isEmpty_iff.mp hempty
    rw [h2]
    rfl
  · simp only [hempty, Bool.false_eq_true, if_false] at hq
    cases hth : analyzeThreads (loadedItems files) (loadedItems files).length with
    | error e => rw [hth] at hq; cases hq
    | ok thm =>
      rw [hth] at hq
      have h1 := Except.ok.inj hq
      rw [← h1]
      rfl

theorem calcAll_items_with_text (files : List OutFile) (qm : QualityMetrics)
    (hq : calculateAllMetrics files = .ok qm) :
    (qm.text.map TextMetrics.items_with_text).getD 0
      = (loadedItems files).countP (fun it => extractText it TEXT_FIELDS ≠ "") := by
  unfold calculateAllMetrics at hq
  by_cases hempty : (loadedItems files).isEmpty = true
  · simp only [hempty, if_true] at hq
    have h1 : ({} : QualityMetrics) = qm := Except.ok.inj hq
    rw [← h1]
    have h2 : loadedItems files = [] := List.isEmpty_iff.mp hempty
    rw [h2]
    rfl
  · simp only [hempty, Bool.false_eq_true, if_false] at hq
    cases hth : analyzeThreads (loadedItems files) (loadedItems files).length with
    | error e => rw [hth] at hq; cases hq
    | ok thm =>
      rw [hth] at hq
      have h1 := Except.ok.inj hq
      rw [← h1]
      show ((analyzeTextContent (loadedItems files)).map TextMetrics.items_with_text).getD 0 = _
      unfold analyzeTextContent
      by_cases h0 : (textLengths (loadedItems files)).length = 0
      · simp only [h0, if_true]
        rw [← textLengths_length_eq_countP, h0]
        rfl
      · simp only [h0, Bool.false_eq_true, if_false]
        rw [← textLengths_length_eq_countP]
        rfl

theorem executeBenchmark_items_extracted (exitCode : Int) (runtime : ℚ)
    (files : List OutFile) (r : BenchResult)
    (hr : executeBenchmark exitCode runtime files = .ok r) :
    r.items_extracted = itemsCount files := by
  unfold executeBenchmark at hr
  by_cases hs : successOf exitCode = true
  · simp only [hs, if_true] at hr
    cases hq : calculateAllMetrics files with
    | error e => rw [hq] at hr; cases hr
    | ok qm =>
      rw [hq] at hr
      cases henh : enhancedStage files with
      | mk em emErr =>
        rw [henh] at hr
        have h1 := Except.ok.inj hr
        rw [← h1]
  · simp only [hs, Bool.false_eq_true, if_false] at hr
    have h1 := Except.ok.inj hr
    rw [← h1]

theorem executeBenchmark_text_field (runtime : ℚ) (files : List OutFile) (r : BenchResult)
    (hr : executeBenchmark 0 runtime files = .ok r) :
    r.text_items_per_second =
      if 0 < runtime
          ∧ 0 < (loadedItems files).countP (fun it => extractText it TEXT_FIELDS ≠ "")
      then some
        (((loadedItems files).countP (fun it => extractText it TEXT_FIELDS ≠ "") : ℚ) / runtime)
      else none := by
  unfold executeBenchmark at hr
  have hs : successOf 0 = true := rfl
  simp only [hs, if_true] at hr
  cases hq : calculateAllMetrics files with
  | error e => rw [hq] at hr; cases hr
  | ok qm =>
    rw [hq] at hr
    cases henh : enhancedStage files with
    | mk em emErr =>
      rw [henh] at hr
      have h1 := Except.ok.inj hr
      rw [← h1]
      show (if 0 < runtime ∧ 0 < (qm.text.map TextMetrics.items_with_text).getD 0 then
          some (((qm.text.map TextMetrics.items_with_text).getD 0 : ℚ) / runtime)
        else none) = _
      rw [calcAll_items_with_text files qm hq]

theorem executeBenchmark_ips (exitCode : Int) (runtime : ℚ)
    (files : List OutFile) (r : BenchResult)
    (hr : executeBenchmark exitCode runtime files = .ok r)
    (hjson : ∀ f ∈ files, f.present = true → f.isJsonl = true ∧ ∀ l ∈ f.lines, l.isSome = true)
    (hz : exitCode = 0) :
    r.items_per_second = if 0 < runtime then (itemsCount files : ℚ) / runtime else 0 := by
  subst hz
  unfold executeBenchmark at hr
  have hs : successOf 0 = true := rfl
  simp only [hs, if_true] at hr
  cases hq : calculateAllMetrics files with
  | error e => rw [hq] at hr; cases hr
  | ok qm =>
    rw [hq] at hr
    cases henh : enhancedStage files with
    | mk em emErr =>
      rw [henh] at hr
      have h1 := Except.ok.inj hr
      rw [← h1]
      show (if 0 < runtime ∧ 0 < qm.total_items.getD 0 then
          (qm.total_items.getD 0 : ℚ) / runtime
        else if 0 < runtime then (itemsCount files : ℚ) / runtime else 0) = _
      rw [calcAll_total_items files qm hq, loadedItems_length_eq_itemsCount files hjson]
      by_cases hk : 0 < itemsCount files
      · by_cases hrt : 0 < runtime
        · rw [if_pos ⟨hrt, hk⟩, if_pos hrt]
        · have : ¬ (0 < runtime ∧ 0 < itemsCount files) := fun hc => hrt hc.1
          rw [if_neg this]
      · have hk0 : itemsCount files = 0 := by omega
        have : ¬ (0 < runtime ∧ 0 < itemsCount files) := fun hc => hk hc.2
        rw [if_neg this]

/-! ### Claim C1 -/

/-- Claim C1 counterexample: a declared output file with one well-formed
and one malformed line is reported with items_extracted 2, not 1 — the
line counter counts every line, malformed ones included. -/
theorem items_extracted_counts_malformed_cex :
    (executeBenchmark 0 1 [c1CexFile]).map BenchResult.items_extracted = .ok 2
    ∧ c1CexFile.lines.countP Option.isSome = 1
    ∧ c1CexFile.lines.countP (fun l => !l.isSome) = 1 := by
  exact ⟨by decide, by decide, by decide⟩

/-- Claim C1 as amended: items_extracted equals the total number of lines
(well-formed plus malformed) across the existing declared output files;
when the supervised process exits 0 and the existing files are all jsonl
files whose K lines are all well-formed, items_per_second equals K over
runtime (0 when the runtime is 0). -/
theorem items_extracted_counts_all_lines_amended (exitCode : Int) (runtime : ℚ)
    (files : List OutFile) (r : BenchResult)
    (hr : executeBenchmark exitCode runtime files = .ok r) :
    r.items_extracted
      = (files.map (fun f =>
          if f.present then
            f.lines.countP Option.isSome + f.lines.countP (fun l => !l.isSome)
          else 0)).foldl (· + ·) 0
    ∧ ((∀ f ∈ files, f.present = true → f.isJsonl = true ∧ ∀ l ∈ f.lines, l.isSome = true) →
        exitCode = 0 →
        r.items_per_second = if 0 < runtime then (itemsCount files : ℚ) / runtime else 0) := by
  constructor
  · rw [executeBenchmark_items_extracted exitCode runtime files r hr]
    unfold itemsCount
    congr 1
    apply List.map_congr_left
    intro f _
    by_cases hp : f.present = true
    · rw [if_pos hp, if_pos hp]
      unfold countItemsInJsonl
      exact countP_some_add_countP_not f.lines
    · have hp' : f.present = false := by
        cases hpv : f.present
        · rfl
        · exact absurd hpv hp
      rw [if_neg hp, if_neg hp]
  · intro hjson hz
    exact executeBenchmark_ips exitCode runtime files r hr hjson hz

theorem items_extracted_counts_all_lines_amended_witness :
    (executeBenchmark 0 2 [c1WitFile]).map BenchResult.items_per_second = .ok 1 := by
  have hok : (executeBenchmark 0 2 [c1WitFile]).isOk = true := by decide
  cases hx : executeBenchmark 0 2 [c1WitFile] with
  | error e => rw [hx] at hok; simp [Except.isOk, Except.toBool] at hok
  | ok r =>
    have h := (items_extracted_counts_all_lines_amended 0 2 [c1WitFile] r hx).2
      (by decide) rfl
    have h2 : itemsCount [c1WitFile] = 2 := by decide
    rw [h2] at h
    show Except.ok r.items_per_second = Except.ok 1
    rw [h]
    norm_num

/-! ### Claim C4 -/

/-- Claim C4 counterexample: a successful run over one record whose text
is 2 characters long (below the 50-character non-trivial threshold) still
reports text_items_per_second 1: the figure divides the count of items
with any text, not the non-trivial count, which is 0 here. -/
theorem text_items_per_second_any_text_cex :
    (executeBenchmark 0 1 [c4CexFile]).map BenchResult.text_items_per_second = .ok (some 1)
    ∧ (textLengths (loadedItems [c4CexFile])).countP
        (fun n => MIN_NONTRIVIAL_TEXT_LENGTH ≤ n) = 0 := by
  refine ⟨?_, by decide⟩
  have hok : (executeBenchmark 0 1 [c4CexFile]).isOk = true := by decide
  cases hx : executeBenchmark 0 1 [c4CexFile] with
  | error e => rw [hx] at hok; simp [Except.isOk, Except.toBool] at hok
  | ok r =>
    have h := executeBenchmark_text_field 1 [c4CexFile] r hx
    have hc : (loadedItems [c4CexFile]).countP
        (fun it => extractText it TEXT_FIELDS ≠ "") = 1 := by decide
    rw [hc] at h
    show Except.ok r.text_items_per_second = Except.ok (some 1)
    rw [h]
    norm_num

/-- Claim C4 as amended: for a successful run, text_items_per_second is
present exactly when the runtime is positive and some record has text, and
then equals the count of records with any non-empty text (not the count
meeting the 50-character non-trivial threshold) divided by the runtime;
when the runtime is 0 the key is absent rather than 0. -/
theorem text_items_per_second_amended (runtime : ℚ) (files : List OutFile)
    (r : BenchResult) (hr : executeBenchmark 0 runtime files = .ok r) :
    r.text_items_per_second =
      if 0 < runtime
          ∧ 0 < (loadedItems files).countP (fun it => extractText it TEXT_FIELDS ≠ "")
      then some
        (((loadedItems files).countP (fun it => extractText it TEXT_FIELDS ≠ "") : ℚ) / runtime)
      else none :=
  executeBenchmark_text_field runtime files r hr

theorem text_items_per_second_amended_witness :
    (executeBenchmark 0 2 [c4CexFile]).map BenchResult.text_items_per_second
      = .ok (some (1 / 2)) := by
  have hok : (executeBenchmark 0 2 [c4CexFile]).isOk = true := by decide
  cases hx : executeBenchmark 0 2 [c4CexFile] with
  | error e => rw [hx] at hok; simp [Except.isOk, Except.toBool] at hok
  | ok r =>
    have h := text_items_per_second_amended 2 [c4CexFile] r hx
    have hc : (loadedItems [c4CexFile]).countP
        (fun it => extractText it TEXT_FIELDS ≠ "") = 1 := by decide
    rw [hc] at h
    show Except.ok r.text_items_per_second = Except.ok (some (1 / 2))
    rw [h]
    norm_num

/-! ### Claim C10 -/

theorem urlOrDefault_isStr (it : Record) (h : urlValuesOkay it = true) :
    ∃ s, urlOrDefault it = .str s := by
  unfold urlValuesOkay at h
  rw [Bool.and_eq_true] at h
  obtain ⟨hu, ht⟩ := h
  have hurl : ∃ s2, (it.lookup "url").getD (.str "") = .str s2 := by
    cases hu' : it.lookup "url" with
    | some w =>
      rw [hu'] at hu
      cases w with
      | str s2 => exact ⟨s2, rfl⟩
      | num n => simp at hu
      | bool b => simp at hu
      | null => simp at hu
    | none => exact ⟨"", rfl⟩
  unfold urlOrDefault
  cases htu : it.lookup "thread_url" with
  | some v =>
    rw [htu] at ht
    cases v with
    | str s =>
      by_cases hs : truthy (JVal.str s) = true
      · refine ⟨s, ?_⟩
        show (if truthy (JVal.str s) = true then JVal.str s
              else (it.lookup "url").getD (JVal.str "")) = JVal.str s
        rw [if_pos hs]
      · show (∃ s2, (if truthy (JVal.str s) = true then JVal.str s
              else (it.lookup "url").getD (JVal.str "")) = JVal.str s2)
        rw [if_neg hs]
        exact hurl
    | num n => simp at ht
    | bool b => simp at ht
    | null => exact hurl
  | none => exact hurl

theorem threadIdOfItem_isOk (it : Record) (h : urlValuesOkay it = true) :
    (threadIdOfItem it).isOk = true := by
  obtain ⟨s, hs⟩ := urlOrDefault_isStr it h
  unfold threadIdOfItem
  simp only [bind, Except.bind]
  split
  · rw [hs]
    repeat' split
    all_goals rfl
  · repeat' split
    all_goals rfl

theorem collectThreadIds_isOk (items : List Record)
    (h : ∀ it ∈ items, urlValuesOkay it = true) :
    (collectThreadIds items).isOk = true := by
  induction items with
  | nil => rfl
  | cons it rest ih =>
    have hit := threadIdOfItem_isOk it (h it (List.mem_cons_self _ _))
    have hrest := ih (fun x hx => h x (List.mem_cons_of_mem _ hx))
    unfold collectThreadIds
    simp only [bind, Except.bind]
    cases h1 : threadIdOfItem it with
    | error e => rw [h1] at hit; simp [Except.isOk, Except.toBool] at hit
    | ok tid =>
      cases h2 : collectThreadIds rest with
      | error e => rw [h2] at hrest; simp [Except.isOk, Except.toBool] at hrest
      | ok tids => rfl

theorem analyzeThreads_isOk (items : List Record) (totalItems : Nat)
    (h : ∀ it ∈ items, urlValuesOkay it = true) :
    (analyzeThreads items totalItems).isOk = true := by
  unfold analyzeThreads
  simp only [bind, Except.bind]
  cases h1 : collectThreadIds items with
  | error e =>
    have := collectThreadIds_isOk items h
    rw [h1] at this
    simp [Except.isOk, Except.toBool] at this
  | ok tids =>
    repeat' split
    all_goals first | rfl | simp_all

theorem calculateAllMetrics_isOk (files : List OutFile)
    (h : ∀ it ∈ loadedItems files, urlValuesOkay it = true) :
    (calculateAllMetrics files).isOk = true := by
  unfold calculateAllMetrics
  by_cases hempty : (loadedItems files).isEmpty = true
  · simp only [hempty, if_true]
    rfl
  · simp only [hempty, Bool.false_eq_true, if_false]
    cases hth : analyzeThreads (loadedItems files) (loadedItems files).length with
    | error e =>
      have := analyzeThreads_isOk (loadedItems files) (loadedItems files).length h
      rw [hth] at this
      simp [Except.isOk, Except.toBool] at this
    | ok thm => rfl

theorem crawlItem_isOk (it : Record) (h : urlValuesOkay it = true) :
    (crawlItem it).isOk = true := by
  obtain ⟨s, hs⟩ := urlOrDefault_isStr it h
  unfold crawlItem
  simp only [bind, Except.bind]
  rw [hs]
  have hm : membershipTest "/threads/" (JVal.str s) = .ok (strContains s "/threads/") := rfl
  rw [hm]
  repeat' split
  all_goals first | rfl | simp_all

theorem crawlScan_isOk (items : List Record)
    (h : ∀ it ∈ items, urlValuesOkay it = true) :
    (crawlScan items).isOk = true := by
  induction items with
  | nil => rfl
  | cons it rest ih =>
    have hit := crawlItem_isOk it (h it (List.mem_cons_self _ _))
    have hrest := ih (fun x hx => h x (List.mem_cons_of_mem _ hx))
    unfold crawlScan
    simp only [bind, Except.bind]
    cases h1 : crawlItem it with
    | error e => rw [h1] at hit; simp [Except.isOk, Except.toBool] at hit
    | ok pair =>
      obtain ⟨tid, page⟩ := pair
      cases h2 : crawlScan rest with
      | error e => rw [h2] at hrest; simp [Except.isOk, Except.toBool] at hrest
      | ok pr => obtain ⟨tids, pages⟩ := pr; rfl

theorem analyzeCrawlBehavior_isOk (items : List Record)
    (h : ∀ it ∈ items, urlValuesOkay it = true) :
    (analyzeCrawlBehavior items).isOk = true := by
  unfold analyzeCrawlBehavior
  simp only [bind, Except.bind]
  cases h1 : crawlScan items with
  | error e =>
    have := crawlScan_isOk items h
    rw [h1] at this
    simp [Except.isOk, Except.toBool] at this
  | ok pr => obtain ⟨tids, pages⟩ := pr; rfl

/-- Claim C10: the metrics pipeline is not total over arbitrary JSON
records: a record whose url key holds the number 5 makes the thread
analyzer hand a non-string to re.search, so calculate_all_metrics raises
TypeError, and the crawl analyzer's substring membership test raises
likewise; the URL analyzer skips non-string values (the record behaves as
one with no url-like field at all); and record lists whose url and
thread_url values are all strings are processed without error by both
pipelines. -/
theorem thread_regex_typeerror_on_nonstring :
    calculateAllMetrics [c10BadFile] = .error .typeError
    ∧ analyzeThreads [c10BadItem] 1 = .error .typeError
    ∧ analyzeCrawlBehavior [c10BadItem] = .error .typeError
    ∧ analyzeUrls [c10BadItem] = analyzeUrls [[]]
    ∧ (∀ files : List OutFile, (∀ it ∈ loadedItems files, urlValuesOkay it = true) →
        (calculateAllMetrics files).isOk = true)
    ∧ (∀ items : List Record, (∀ it ∈ items, urlValuesOkay it = true) →
        (analyzeCrawlBehavior items).isOk = true) := by
  exact ⟨by decide, by decide, by decide, by decide,
    fun files h => calculateAllMetrics_isOk files h,
    fun items h => analyzeCrawlBehavior_isOk items h⟩

theorem thread_regex_typeerror_on_nonstring_witness :
    (calculateAllMetrics [c10GoodFile]).isOk = true := by
  exact thread_regex_typeerror_on_nonstring.2.2.2.2.1 [c10GoodFile] (by decide)

/-! ### Claim C7 -/

theorem contains_eq_mem_str (l : List String) (s : String) : l.contains s = true ↔ s ∈ l := by
  induction l with
  | nil => simp
  | cons x xs ih => simp

theorem foldl_nat_max_perm {m₁ m₂ : List Nat} (hp : m₁.Perm m₂) :
    ∀ a : Nat, m₁.foldl Nat.max a = m₂.foldl Nat.max a := by
  induction hp with
  | nil => intro a; rfl
  | cons x _ ih =>
    intro a
    rw [List.foldl_cons, List.foldl_cons]
    exact ih _
  | swap x y l =>
    intro a
    rw [List.foldl_cons, List.foldl_cons, List.foldl_cons, List.foldl_cons]
    have hc : (a.max y).max x = (a.max x).max y := by
      simp only [Nat.max_def]
      split_ifs <;> omega
    rw [hc]
  | trans _ _ ih1 ih2 =>
    intro a
    exact (ih1 a).trans (ih2 a)

theorem scan_pids_step (item : Record) (pids : List JVal) :
    (match postIdOf item with
     | some v => if truthy v then pids ++ [v] else pids
     | none => pids) = pids ++ (pidOf item).toList := by
  unfold pidOf
  cases hp : postIdOf item with
  | some v => by_cases ht : truthy v = true <;> simp [ht]
  | none => simp

theorem pidsOf_cons (item : Record) (rest : List Record) :
    pidsOf (item :: rest) = (pidOf item).toList ++ pidsOf rest := by
  unfold pidsOf
  rw [List.filterMap_cons]
  cases pidOf item <;> simp

theorem textsOf_cons (item : Record) (rest : List Record) :
    textsOf (item :: rest) = (textOf item).toList ++ textsOf rest := by
  unfold textsOf
  rw [List.filterMap_cons]
  cases textOf item <;> simp

theorem dedup_length_append_mem {s : List String} {x : String} (ts : List String)
    (hx : x ∈ s) :
    (s ++ x :: ts).dedup.length = (s ++ ts).dedup.length := by
  rw [← List.card_toFinset, ← List.card_toFinset]
  congr 1
  ext a
  simp only [List.mem_toFinset, List.mem_append, List.mem_cons]
  constructor
  · rintro (h | h | h)
    · exact Or.inl h
    · exact Or.inl (h ▸ hx)
    · exact Or.inr h
  · rintro (h | h)
    · exact Or.inl h
    · exact Or.inr (Or.inr h)

theorem dupScan_ok_split (items : List Record) :
    ∀ (pids : List JVal) (seen : List String) (dup : Nat)
      (P : List JVal) (S : List String) (D : Nat),
      seen.Nodup →
      dupScan items pids seen dup = .ok (P, S, D) →
      P = pids ++ pidsOf items
      ∧ S.length = (seen ++ textsOf items).dedup.length
      ∧ S.length + D = seen.length + dup + (textsOf items).length
      ∧ S.Nodup := by
  induction items with
  | nil =>
    intro pids seen dup P S D hnd hscan
    have h1 := Except.ok.inj hscan
    injection h1 with hP h2
    injection h2 with hS hD
    subst hP; subst hS; subst hD
    refine ⟨by simp [pidsOf], ?_, ?_, hnd⟩
    · rw [show textsOf [] = [] from rfl, List.append_nil,
        List.dedup_eq_self.mpr hnd]
    · simp [textsOf]
  | cons item rest ih =>
    intro pids seen dup P S D hnd hscan
    unfold dupScan at hscan
    rw [scan_pids_step item pids] at hscan
    simp only [] at hscan
    cases htv : (item.lookup "text").getD (.str "") with
    | str s =>
      rw [htv] at hscan
      by_cases hs : s = ""
      · subst hs
        rw [show truthy (JVal.str "") = false from rfl] at hscan
        simp only [Bool.false_eq_true, if_false] at hscan
        have htxt : textOf item = none := by unfold textOf; rw [htv]; simp
        obtain ⟨h1, h2, h3, h4⟩ := ih _ _ _ _ _ _ hnd hscan
        rw [textsOf_cons, pidsOf_cons, htxt]
        refine ⟨by simpa [← List.append_assoc] using h1, by simpa using h2,
          by simpa using h3, h4⟩
      · have hst : truthy (.str s) = true := by simp [truthy, hs]
        rw [if_pos hst] at hscan
        simp only [] at hscan
        have htxt : textOf item = some s := by unfold textOf; rw [htv]; simp [hs]
        by_cases hc : seen.contains (contentFingerprint s) = true
        · rw [if_pos hc] at hscan
          obtain ⟨h1, h2, h3, h4⟩ := ih _ _ _ _ _ _ hnd hscan
          have hmem : s ∈ seen := (contains_eq_mem_str seen s).mp hc
          rw [textsOf_cons, pidsOf_cons, htxt]
          refine ⟨by simpa [← List.append_assoc] using h1, ?_, ?_, h4⟩
          · rw [h2]
            show _ = (seen ++ s :: textsOf rest).dedup.length
            rw [dedup_length_append_mem (textsOf rest) hmem]
          · simp only [Option.toList_some, List.singleton_append, List.length_cons]
            omega
        · rw [if_neg hc] at hscan
          have hmem : s ∉ seen := fun hm => hc ((contains_eq_mem_str seen s).mpr hm)
          have hnd' : (seen ++ [contentFingerprint s]).Nodup := by
            rw [List.nodup_append]
            exact ⟨hnd, List.nodup_singleton _, by
              intro a ha hb
              rw [List.mem_singleton] at hb
              subst hb
              exact hmem ha⟩
          obtain ⟨h1, h2, h3, h4⟩ := ih _ _ _ _ _ _ hnd' hscan
          rw [textsOf_cons, pidsOf_cons, htxt]
          refine ⟨by simpa [← List.append_assoc] using h1, ?_, ?_, h4⟩
          · rw [h2]
            show (seen ++ [contentFingerprint s] ++ textsOf rest).dedup.length
              = (seen ++ ((some s).toList ++ textsOf rest)).dedup.length
            rw [← List.append_assoc]
            rfl
          · simp only [List.length_append, List.length_singleton] at h3
            simp only [Option.toList_some, List.singleton_append, List.length_cons]
            omega
    | num n =>
      rw [htv] at hscan
      by_cases hn : truthy (.num n) = true
      · rw [if_pos hn] at hscan
        simp only [] at hscan
        cases hscan
      · rw [if_neg hn] at hscan
        have htxt : textOf item = none := by unfold textOf; rw [htv]
        obtain ⟨h1, h2, h3, h4⟩ := ih _ _ _ _ _ _ hnd hscan
        rw [textsOf_cons, pidsOf_cons, htxt]
        refine ⟨by simpa [← List.append_assoc] using h1, by simpa using h2,
          by simpa using h3, h4⟩
    | bool b =>
      rw [htv] at hscan
      by_cases hn : truthy (.bool b) = true
      · rw [if_pos hn] at hscan
        simp only [] at hscan
        cases hscan
      · rw [if_neg hn] at hscan
        have htxt : textOf item = none := by unfold textOf; rw [htv]
        obtain ⟨h1, h2, h3, h4⟩ := ih _ _ _ _ _ _ hnd hscan
        rw [textsOf_cons, pidsOf_cons, htxt]
        refine ⟨by simpa [← List.append_assoc] using h1, by simpa using h2,
          by simpa using h3, h4⟩
    | null =>
      rw [htv] at hscan
      rw [show truthy JVal.null = false from rfl] at hscan
      simp only [Bool.false_eq_true, if_false] at hscan
      have htxt : textOf item = none := by unfold textOf; rw [htv]
      obtain ⟨h1, h2, h3, h4⟩ := ih _ _ _ _ _ _ hnd hscan
      rw [textsOf_cons, pidsOf_cons, htxt]
      refine ⟨by simpa [← List.append_assoc] using h1, by simpa using h2,
        by simpa using h3, h4⟩

theorem dupScan_ok_textOkay (items : List Record) :
    ∀ (pids : List JVal) (seen : List String) (dup : Nat)
      (res : List JVal × List String × Nat),
      dupScan items pids seen dup = .ok res →
      ∀ it ∈ items, textOkay it = true := by
  induction items with
  | nil => intro _ _ _ _ _ it hit; cases hit
  | cons item rest ih =>
    intro pids seen dup res hscan it hit
    unfold dupScan at hscan
    rw [scan_pids_step item pids] at hscan
    simp only [] at hscan
    cases htv : (item.lookup "text").getD (.str "") with
    | str s =>
      rw [htv] at hscan
      rcases List.mem_cons.mp hit with heq | hmem
      · subst heq
        unfold textOkay
        rw [htv]
      · by_cases hs : truthy (.str s) = true
        · rw [if_pos hs] at hscan
          simp only [] at hscan
          by_cases hc : seen.contains (contentFingerprint s) = true
          · rw [if_pos hc] at hscan
            exact ih _ _ _ _ hscan it hmem
          · rw [if_neg hc] at hscan
            exact ih _ _ _ _ hscan it hmem
        · rw [if_neg hs] at hscan
          exact ih _ _ _ _ hscan it hmem
    | num n =>
      rw [htv] at hscan
      by_cases hn : truthy (.num n) = true
      · rw [if_pos hn] at hscan
        simp only [] at hscan
        cases hscan
      · rw [if_neg hn] at hscan
        rcases List.mem_cons.mp hit with heq | hmem
        · subst heq
          unfold textOkay
          rw [htv]
          have hv : truthy (JVal.num n) = false := by
            cases hv2 : truthy (JVal.num n)
            · rfl
            · exact absurd hv2 hn
          show (!truthy (JVal.num n)) = true
          rw [hv]
          rfl
        · exact ih _ _ _ _ hscan it hmem
    | bool b =>
      rw [htv] at hscan
      by_cases hn : truthy (.bool b) = true
      · rw [if_pos hn] at hscan
        simp only [] at hscan
        cases hscan
      · rw [if_neg hn] at hscan
        rcases List.mem_cons.mp hit with heq | hmem
        · subst heq
          unfold textOkay
          rw [htv]
          have hv : truthy (JVal.bool b) = false := by
            cases hv2 : truthy (JVal.bool b)
            · rfl
            · exact absurd hv2 hn
          show (!truthy (JVal.bool b)) = true
          rw [hv]
          rfl
        · exact ih _ _ _ _ hscan it hmem
    | null =>
      rw [htv] at hscan
      rw [show truthy JVal.null = false from rfl] at hscan
      simp only [Bool.false_eq_true, if_false] at hscan
      rcases List.mem_cons.mp hit with heq | hmem
      · subst heq
        unfold textOkay
        rw [htv]
        rfl
      · exact ih _ _ _ _ hscan it hmem

theorem analyzeDuplication_perm_transfer (l₁ l₂ : List Record) (hp : List.Perm l₁ l₂)
    (d : DupMetrics) (h : analyzeDuplication l₁ = .ok d) :
    analyzeDuplication l₂ = .ok d := by
  unfold analyzeDuplication at h ⊢
  cases hs1 : dupScan l₁ [] [] 0 with
  | error e => rw [hs1] at h; cases h
  | ok t1 =>
    obtain ⟨P₁, S₁, D₁⟩ := t1
    rw [hs1] at h
    have hok1 : ∀ it ∈ l₁, textOkay it = true :=
      dupScan_ok_textOkay l₁ [] [] 0 (P₁, S₁, D₁) hs1
    have hok2 : ∀ it ∈ l₂, textOkay it = true :=
      fun it hit => hok1 it (hp.mem_iff.mpr hit)
    have h2ok := dupScan_isOk l₂ [] [] 0 hok2
    cases hs2 : dupScan l₂ [] [] 0 with
    | error e => rw [hs2] at h2ok; simp [Except.isOk, Except.toBool] at h2ok
    | ok t2 =>
      obtain ⟨P₂, S₂, D₂⟩ := t2
      obtain ⟨hP1, hS1, hB1, _⟩ :=
        dupScan_ok_split l₁ [] [] 0 P₁ S₁ D₁ List.nodup_nil hs1
      obtain ⟨hP2, hS2, hB2, _⟩ :=
        dupScan_ok_split l₂ [] [] 0 P₂ S₂ D₂ List.nodup_nil hs2
      rw [List.nil_append] at hP1 hP2 hS1 hS2
      have hpp : P₁.Perm P₂ := by
        rw [hP1, hP2]
        exact hp.filterMap pidOf
      have hts : (textsOf l₁).Perm (textsOf l₂) := hp.filterMap textOf
      have hSlen : S₁.length = S₂.length := by
        rw [hS1, hS2]
        exact hts.dedup.length_eq
      have hTlen : (textsOf l₁).length = (textsOf l₂).length := hts.length_eq
      have hD : D₂ = D₁ := by omega
      have hLen : P₂.length = P₁.length := hpp.length_eq.symm
      have hDed : P₂.dedup.length = P₁.dedup.length := hpp.dedup.length_eq.symm
      have hS : S₂.length = S₁.length := hSlen.symm
      have hCntF : (fun p => decide (1 < P₂.count p)) = (fun p => decide (1 < P₁.count p)) := by
        funext x
        rw [hpp.count_eq x]
      have hFlt : (P₂.dedup.filter (fun p => decide (1 < P₂.count p))).length
          = (P₁.dedup.filter (fun p => decide (1 < P₁.count p))).length := by
        rw [hCntF]
        exact (hpp.dedup.symm.filter _).length_eq
      have hCntF2 : (fun p => P₂.count p) = (fun p => P₁.count p) := by
        funext x
        rw [hpp.count_eq x]
      have hMax : (P₂.dedup.map (fun p => P₂.count p)).foldl Nat.max 0
          = (P₁.dedup.map (fun p => P₁.count p)).foldl Nat.max 0 := by
        rw [hCntF2]
        exact foldl_nat_max_perm ((hpp.dedup.symm).map _) 0
      have hd := Except.ok.inj h
      rw [← hd]
      show Except.ok _ = Except.ok _
      rw [hLen, hDed, hS, hD, hFlt, hMax]

theorem analyzeIdentifiers_perm (l₁ l₂ : List Record) (hp : List.Perm l₁ l₂) :
    analyzeIdentifiers l₁ = analyzeIdentifiers l₂ := by
  have hids : (allIds l₁).Perm (allIds l₂) := hp.filterMap _
  have hlen : (allIds l₁).length = (allIds l₂).length := hids.length_eq
  have hded : (allIds l₁).dedup.length = (allIds l₂).dedup.length := hids.dedup.length_eq
  unfold analyzeIdentifiers
  by_cases he : (allIds l₁).isEmpty = true
  · have he2 : (allIds l₂).isEmpty = true := by
      rw [List.isEmpty_iff_length_eq_zero] at he ⊢
      omega
    rw [if_pos he, if_pos he2]
  · have he2 : ¬ (allIds l₂).isEmpty = true := by
      rw [List.isEmpty_iff_length_eq_zero] at he ⊢
      omega
    rw [if_neg he, if_neg he2]
    simp only []
    rw [hlen, hded]

/-- Claim C7: the duplication metrics are invariant under record
reordering: the identifier analyzer's whole output is unchanged by
permutation, and whenever the enhanced duplication analyzer succeeds on a
record list it succeeds on any permutation of it with the very same
metrics (rates included), because each figure depends only on the multiset
of extracted ids and text fingerprints. -/
theorem duplication_metrics_perm_invariant (l₁ l₂ : List Record)
    (hp : List.Perm l₁ l₂) :
    analyzeIdentifiers l₁ = analyzeIdentifiers l₂
    ∧ (∀ d : DupMetrics, analyzeDuplication l₁ = .ok d → analyzeDuplication l₂ = .ok d) :=
  ⟨analyzeIdentifiers_perm l₁ l₂ hp,
   fun d h => analyzeDuplication_perm_transfer l₁ l₂ hp d h⟩

theorem duplication_metrics_perm_invariant_witness :
    analyzeIdentifiers c7ItemsA = analyzeIdentifiers c7ItemsB :=
  (duplication_metrics_perm_invariant c7ItemsA c7ItemsB (by decide)).1
